import Mathlib

/-!
Verification development for the HLS streaming-proxy core of the Dream
repository (`src/app.py`): the playlist rewriter `rewrite_m3u8_urls`, the
URL helpers (`get_base_url`, `urllib.parse.urljoin`, `quote`, `unquote`)
and the two proxy routes `stream_video` (`GET /stream/<video_id>`) and
`proxy_segment` (`GET /segment/<video_id>`).

Strings are modelled as Lean `String`/`List Char`; the byte level (UTF-8)
is modelled with `List Nat` where percent-encoding operates on bytes.
Library functions used by the source (`str.strip`, `str.split`,
`urllib.parse.quote/unquote/urljoin`, werkzeug's query-string decoding,
`requests`' case-insensitive header mapping) are embedded following their
documented CPython/werkzeug semantics, as noted on each definition.
-/

/-- The double-quote character, written once so the rest of the file can
name it without repeated escapes. -/
def dq : Char := '"'

/-- The newline character used by `rewrite_m3u8_urls` as line separator. -/
def nl : Char := '\n'

/-- Python `str.isspace` / the character set stripped by `str.strip()`:
ASCII whitespace, the C1 separators, and the Unicode space characters. -/
def pyIsSpace (c : Char) : Bool :=
  let n := c.toNat
  n == 9 || n == 10 || n == 11 || n == 12 || n == 13 ||
  (decide (28 ≤ n) && decide (n ≤ 31)) || n == 32 || n == 133 || n == 160 ||
  n == 5760 || (decide (8192 ≤ n) && decide (n ≤ 8202)) ||
  n == 8232 || n == 8233 || n == 8239 || n == 8287 || n == 12288

/-- Python `str.strip()` on a list of characters: drop leading and trailing
whitespace. -/
def pyStrip (l : List Char) : List Char :=
  ((l.dropWhile pyIsSpace).reverse.dropWhile pyIsSpace).reverse

/-- Python `str.split(sep)` for a one-character separator `c`; keeps empty
pieces, and the split of the empty string is `[[]]`, exactly as in Python. -/
def splitSep (c : Char) : List Char → List (List Char)
  | [] => [[]]
  | a :: t =>
    if a = c then [] :: splitSep c t
    else
      match splitSep c t with
      | [] => [[a]]
      | h :: t2 => (a :: h) :: t2

/-- Python `sep.join(pieces)` for a one-character separator `c`. -/
def joinSep (c : Char) : List (List Char) → List Char
  | [] => []
  | [x] => x
  | x :: y :: t => x ++ c :: joinSep c (y :: t)

/-- Python `pat in s` (substring test) on lists of characters. -/
def containsSub (pat : List Char) : List Char → Bool
  | [] => pat.isEmpty
  | c :: t => pat.isPrefixOf (c :: t) || containsSub pat t

/-- Python `pat in s` on strings: true when `pat` occurs in `s`. -/
def containsStr (s pat : String) : Bool := containsSub pat.data s.data

/-- Python `str.lower()`; ASCII case mapping (the only case occurring in
the program's header values and scheme names). -/
def lowerStr (s : String) : String := ⟨s.data.map Char.toLower⟩

/-- UTF-8 encoding of a code point, as a list of byte values. -/
def utf8Encode (n : Nat) : List Nat :=
  if n < 128 then [n]
  else if n < 2048 then [192 + n / 64, 128 + n % 64]
  else if n < 65536 then [224 + n / 4096, 128 + (n / 64) % 64, 128 + n % 64]
  else [240 + n / 262144, 128 + (n / 4096) % 64, 128 + (n / 64) % 64, 128 + n % 64]

/-- The UTF-8 bytes of a string (CPython encodes a `str` to UTF-8 before
percent-encoding and after percent-decoding). -/
def strBytes (s : String) : List Nat := s.data.flatMap (fun c => utf8Encode c.toNat)

/-- The characters `urllib.parse.quote` never escapes: ASCII letters,
digits, and `_.-~` (the call sites pass `safe=''`, so nothing else is
left unescaped). -/
def safeChar (c : Char) : Bool :=
  let n := c.toNat
  (decide (48 ≤ n) && decide (n ≤ 57)) || (decide (65 ≤ n) && decide (n ≤ 90)) ||
  (decide (97 ≤ n) && decide (n ≤ 122)) || n == 45 || n == 46 || n == 95 || n == 126

/-- Uppercase hexadecimal digit character, as produced by `quote`. -/
def hexDigitChar : Nat → Char
  | 0 => '0' | 1 => '1' | 2 => '2' | 3 => '3' | 4 => '4'
  | 5 => '5' | 6 => '6' | 7 => '7' | 8 => '8' | 9 => '9'
  | 10 => 'A' | 11 => 'B' | 12 => 'C' | 13 => 'D' | 14 => 'E' | 15 => 'F'
  | _ => '0'

/-- The three characters `%XY` escaping one byte. -/
def pctByteChars (b : Nat) : List Char := ['%', hexDigitChar (b / 16), hexDigitChar (b % 16)]

/-- `urllib.parse.quote(·, safe='')` on one character: a safe ASCII
character stands for itself, anything else has each of its UTF-8 bytes
percent-escaped (every byte of a multi-byte sequence is ≥ 0x80, hence
unsafe, so escaping all of them matches CPython exactly). -/
def quoteChar (c : Char) : List Char :=
  if safeChar c then [c] else (utf8Encode c.toNat).flatMap pctByteChars

/-- `urllib.parse.quote(l, safe='')` on a list of characters. -/
def quoteL (l : List Char) : List Char := l.flatMap quoteChar

/-- `urllib.parse.quote(s, safe='')` on a string. -/
def quoteStr (s : String) : String := ⟨quoteL s.data⟩

/-- Byte-level safe set of `quote` (same ranges as `safeChar`). -/
def isSafeByte (b : Nat) : Bool :=
  (decide (48 ≤ b) && decide (b ≤ 57)) || (decide (65 ≤ b) && decide (b ≤ 90)) ||
  (decide (97 ≤ b) && decide (b ≤ 122)) || b == 45 || b == 46 || b == 95 || b == 126

/-- Uppercase hexadecimal digit, as a byte value. -/
def hexDigitByte (n : Nat) : Nat := if n < 10 then 48 + n else 55 + n

/-- Byte-level percent-encoding of one byte with `safe=''`. -/
def pctEncByte (b : Nat) : List Nat :=
  if isSafeByte b then [b] else [37, hexDigitByte (b / 16), hexDigitByte (b % 16)]

/-- Byte-level `urllib.parse.quote(·, safe='')`: percent-encode every
unsafe byte of the input. -/
def pctEnc (bs : List Nat) : List Nat := bs.flatMap pctEncByte

/-- Value of a hexadecimal digit byte, if it is one. -/
def hexVal (b : Nat) : Option Nat :=
  if 48 ≤ b ∧ b ≤ 57 then some (b - 48)
  else if 65 ≤ b ∧ b ≤ 70 then some (b - 55)
  else if 97 ≤ b ∧ b ≤ 102 then some (b - 87)
  else none

/-- Byte-level percent-decoding, the core of `urllib.parse.unquote`: each
`%` followed by two hexadecimal digits becomes one byte; anything else is
copied verbatim (matching `unquote`'s treatment of invalid escapes). -/
def pctDec : List Nat → List Nat
  | [] => []
  | [b] => [b]
  | [b, c] => [b, c]
  | b :: h1 :: h2 :: rest =>
    if b = 37 then
      match hexVal h1, hexVal h2 with
      | some x, some y => (16 * x + y) :: pctDec rest
      | _, _ => 37 :: pctDec (h1 :: h2 :: rest)
    else b :: pctDec (h1 :: h2 :: rest)

/-- Whether a byte is a UTF-8 continuation byte. -/
def isCont (b : Nat) : Bool := decide (128 ≤ b) && decide (b ≤ 191)

/-- The replacement character U+FFFD used by `errors='replace'` decoding. -/
def uRepl : Char := Char.ofNat 65533

def utf8DecodeF : Nat → List Nat → List Char
  | _, [] => []
  | 0, _ :: _ => []
  | fuel + 1, b :: rest =>
    if b < 128 then Char.ofNat b :: utf8DecodeF fuel rest
    else if 194 ≤ b ∧ b ≤ 223 then
      match rest with
      | b2 :: rest2 =>
        if isCont b2 then
          Char.ofNat ((b - 192) * 64 + (b2 - 128)) :: utf8DecodeF fuel rest2
        else uRepl :: utf8DecodeF fuel rest
      | [] => [uRepl]
    else if 224 ≤ b ∧ b ≤ 239 then
      match rest with
      | b2 :: b3 :: rest3 =>
        if isCont b2 && isCont b3 then
          Char.ofNat ((b - 224) * 4096 + (b2 - 128) * 64 + (b3 - 128)) :: utf8DecodeF fuel rest3
        else uRepl :: utf8DecodeF fuel rest
      | _ => uRepl :: utf8DecodeF fuel rest
    else if 240 ≤ b ∧ b ≤ 244 then
      match rest with
      | b2 :: b3 :: b4 :: rest4 =>
        if isCont b2 && isCont b3 && isCont b4 then
          Char.ofNat ((b - 240) * 262144 + (b2 - 128) * 4096 + (b3 - 128) * 64 + (b4 - 128)) ::
            utf8DecodeF fuel rest4
        else uRepl :: utf8DecodeF fuel rest
      | _ => uRepl :: utf8DecodeF fuel rest
    else uRepl :: utf8DecodeF fuel rest

/-- UTF-8 decoding with replacement on error (the decoding CPython applies
to percent-decoded bytes inside `unquote`). The fuel argument only drives
structural recursion; every step consumes at least one byte, so the input
length is always enough fuel. -/
def utf8Decode (l : List Nat) : List Char := utf8DecodeF l.length l

/-- `urllib.parse.unquote(s)` as called at `app.py:577`: percent-decode the
string's bytes and decode the result as UTF-8 (with replacement). -/
def unquoteStr (s : String) : String := ⟨utf8Decode (pctDec (strBytes s))⟩

/-- Replace `+` (byte 43) by space (byte 32), the first step of
form/query-string value decoding. -/
def plusToSpace (bs : List Nat) : List Nat :=
  bs.map (fun b => if b == 43 then 32 else b)

/-- Modelled from werkzeug (the WSGI layer under Flask, not part of
`src/`): the value `request.args.get(name)` returns for a query-string
parameter — `+` becomes space, then one round of percent-decoding. -/
def wzQueryValue (s : String) : String := ⟨utf8Decode (pctDec (plusToSpace (strBytes s)))⟩

/-- Byte-level form of `wzQueryValue`, for byte-for-byte statements. -/
def wzQueryBytes (bs : List Nat) : List Nat := pctDec (plusToSpace bs)

/-- The byte values of an ASCII string, for byte-level statements. -/
def asciiBytes (s : String) : List Nat := s.data.map Char.toNat

/-- Parsed URL pieces as produced by `urllib.parse.urlsplit`. -/
structure UrlParts where
  scheme : String
  netloc : String
  path : String
  query : String
  fragment : String
deriving DecidableEq

/-- Characters allowed in a URL scheme after the first letter. -/
def schemeChar (c : Char) : Bool :=
  c.isAlpha || c.isDigit || c == '+' || c == '-' || c == '.'

/-- Scheme detection of `urllib.parse.urlsplit`: a leading ASCII letter,
scheme characters up to the first `:`; returns the lowercased scheme and
the remainder, or `none` when the URL carries no scheme. -/
def splitScheme (l : List Char) : Option (List Char × List Char) :=
  match l.findIdx? (· = ':') with
  | none => none
  | some i =>
    if 0 < i ∧ (l.take i).all schemeChar ∧ (l.headD ' ').isAlpha then
      some ((l.take i).map Char.toLower, l.drop (i + 1))
    else none

/-- Split at the first occurrence of `c`: the part before, and the part
after when `c` occurs (`[]` otherwise), as Python's `s.split(c, 1)`. -/
def breakAt (c : Char) (l : List Char) : List Char × List Char :=
  match l.dropWhile (· ≠ c) with
  | [] => (l.takeWhile (· ≠ c), [])
  | _ :: after => (l.takeWhile (· ≠ c), after)

/-- `urllib.parse.urlsplit(url, scheme=default)`: detect the scheme (falling
back to `default`), the `//netloc` part (delimited by `/`, `?` or `#`),
then split off the fragment at the first `#` and the query at the first
`?`. Parameter (`;`) splitting of `urlparse` is not modelled; the source
never passes URLs where it differs. -/
def urlsplitWith (defaultScheme : List Char) (url : List Char) : UrlParts :=
  let (scheme, rest) :=
    match splitScheme url with
    | some (s, r) => (s, r)
    | none => (defaultScheme, url)
  let (netloc, rest2) :=
    if ['/', '/'].isPrefixOf rest then
      ((rest.drop 2).takeWhile (fun c => ¬(c = '/' ∨ c = '?' ∨ c = '#')),
       (rest.drop 2).dropWhile (fun c => ¬(c = '/' ∨ c = '?' ∨ c = '#')))
    else ([], rest)
  let (beforeFrag, fragment) := breakAt '#' rest2
  let (path, query) := breakAt '?' beforeFrag
  { scheme := ⟨scheme⟩, netloc := ⟨netloc⟩, path := ⟨path⟩,
    query := ⟨query⟩, fragment := ⟨fragment⟩ }

/-- `urllib.parse.urlunsplit`: reassemble URL pieces. -/
def urlunsplitParts (p : UrlParts) : String :=
  let u := p.path
  let u :=
    if p.netloc ≠ "" ∨ ['/', '/'].isPrefixOf u.data then
      "//" ++ p.netloc ++ (if u ≠ "" ∧ ¬ ['/'].isPrefixOf u.data then "/" ++ u else u)
    else u
  let u := if p.scheme ≠ "" then p.scheme ++ ":" ++ u else u
  let u := if p.query ≠ "" then u ++ "?" ++ p.query else u
  if p.fragment ≠ "" then u ++ "#" ++ p.fragment else u

/-- `urllib.parse.uses_relative`: schemes joined by relative resolution. -/
def usesRelative : List String :=
  ["", "ftp", "http", "gopher", "nntp", "imap", "wais", "file", "https",
   "shttp", "mms", "prospero", "rtsp", "rtspu", "sftp", "svn", "svn+ssh",
   "ws", "wss"]

/-- `urllib.parse.uses_netloc`: schemes whose URLs carry a network location. -/
def usesNetloc : List String :=
  ["", "ftp", "http", "gopher", "nntp", "telnet", "imap", "wais", "file",
   "mms", "https", "shttp", "snews", "prospero", "rtsp", "rtspu", "rsync",
   "svn", "svn+ssh", "sftp", "nfs", "git", "git+ssh", "ws", "wss",
   "itms-services"]

/-- Keep the first element, drop empty strings from the middle, keep the
last element: Python's `segments[1:-1] = filter(None, segments[1:-1])`. -/
def keepLastFilter : List String → List String
  | [] => []
  | [x] => [x]
  | x :: y :: t =>
    if x = "" then keepLastFilter (y :: t) else x :: keepLastFilter (y :: t)

/-- Drop empty middle segments (first and last kept). -/
def filterMiddle : List String → List String
  | [] => []
  | x :: t => x :: keepLastFilter t

/-- The dot-segment resolution loop of `urljoin`: `..` pops, `.` is
skipped, anything else is appended. -/
def resolveSegs (segs : List String) : List String :=
  segs.foldl
    (fun acc seg =>
      if seg = ".." then acc.dropLast
      else if seg = "." then acc
      else acc ++ [seg]) []

/-- `urllib.parse.urljoin(base, url)`, following CPython: return one side
when the other is empty; parse `url` with `base`'s scheme as default;
return `url` for a different or non-relative scheme; take the base's
netloc when `url` has none; keep the base path (and query, when `url` has
none) for an empty reference path; otherwise merge the paths and collapse
`.`/`..` segments. -/
def urljoin (base url : String) : String :=
  if base = "" then url
  else if url = "" then base
  else
    let b := urlsplitWith [] base.data
    let r := urlsplitWith b.scheme.data url.data
    if r.scheme ≠ b.scheme ∨ usesRelative.contains r.scheme = false then url
    else if usesNetloc.contains r.scheme ∧ r.netloc ≠ "" then urlunsplitParts r
    else
      let netloc := if usesNetloc.contains r.scheme then b.netloc else r.netloc
      if r.path = "" then
        urlunsplitParts
          { scheme := r.scheme, netloc := netloc, path := b.path,
            query := if r.query = "" then b.query else r.query,
            fragment := r.fragment }
      else
        let segments :=
          if ['/'].isPrefixOf r.path.data then (splitSep '/' r.path.data).map (⟨·⟩)
          else
            let bp := (splitSep '/' b.path.data).map ((⟨·⟩) : List Char → String)
            let bp := if bp.getLast? = some "" then bp else bp.dropLast
            filterMiddle (bp ++ (splitSep '/' r.path.data).map (⟨·⟩))
        let resolved := resolveSegs segments
        let resolved :=
          if segments.getLast? = some "." ∨ segments.getLast? = some ".." then
            resolved ++ [""]
          else resolved
        let p : String := ⟨joinSep '/' (resolved.map String.data)⟩
        urlunsplitParts
          { scheme := r.scheme, netloc := netloc,
            path := if p = "" then "/" else p,
            query := r.query, fragment := r.fragment }

/-- Everything of the path up to (excluding) the last `/`; the whole path
when it has no `/` — Python's `path.rsplit('/', 1)[0]`. -/
def upToLastSlash (l : List Char) : List Char :=
  match l.reverse.dropWhile (· ≠ '/') with
  | [] => l
  | _ :: r => r.reverse

/-- `get_base_url` (app.py:426-430): parse the URL and return
`scheme://netloc` + the path with its final segment removed + `/`. -/
def get_base_url (url : String) : String :=
  let p := urlsplitWith [] url.data
  p.scheme ++ "://" ++ p.netloc ++ ⟨upToLastSlash p.path.data⟩ ++ "/"


/-- The literal `URI="` that guards and anchors the rewrite of quoted URI
attributes in comment lines (app.py:449,460). -/
def uriPat : List Char := ['U', 'R', 'I', '=', dq]

/-- The literal `http`: `rewrite_m3u8_urls` classifies a reference as
already absolute exactly when it starts with these four characters
(app.py:453,464). -/
def httpPat : List Char := ['h', 't', 't', 'p']

/-- The character class `[^"]` of the regex `URI="([^"]+)"`. -/
def notDq (x : Char) : Bool := x ≠ dq

theorem notDq_eq_false {x : Char} : notDq x = false ↔ x = dq := by
  simp [notDq]

theorem notDq_eq_true {x : Char} : notDq x = true ↔ x ≠ dq := by
  simp [notDq]

/-- One attempted match of the regex `URI="([^"]+)"` at the head of the
list: the five anchor characters, then a non-empty run of non-quote
characters, then a closing quote. Returns the captured group and the
remainder after the closing quote. -/
def matchUri (l : List Char) : Option (List Char × List Char) :=
  match l with
  | a :: b :: c :: d :: e :: rest =>
    if a = 'U' ∧ b = 'R' ∧ c = 'I' ∧ d = '=' ∧ e = dq then
      if rest.takeWhile notDq = [] then none
      else
        match rest.dropWhile notDq with
        | [] => none
        | _ :: after => some (rest.takeWhile notDq, after)
    else none
  | _ => none

theorem dropWhile_head_false {α : Type} {p : α → Bool} :
    ∀ {l : List α} {x : α} {xs : List α}, l.dropWhile p = x :: xs → p x = false := by
  intro l
  induction l with
  | nil => intro x xs h; simp [List.dropWhile] at h
  | cons a t ih =>
    intro x xs h
    by_cases hp : p a
    · rw [List.dropWhile_cons_of_pos hp] at h; exact ih h
    · rw [List.dropWhile_cons_of_neg hp] at h
      cases h; simpa using hp

theorem mem_takeWhile_true {α : Type} {p : α → Bool} :
    ∀ {l : List α} {a : α}, a ∈ l.takeWhile p → p a = true := by
  intro l
  induction l with
  | nil => intro a h; simp [List.takeWhile] at h
  | cons x t ih =>
    intro a h
    by_cases hp : p x
    · rw [List.takeWhile_cons_of_pos hp] at h
      rcases List.mem_cons.mp h with rfl | h2
      · exact hp
      · exact ih h2
    · rw [List.takeWhile_cons_of_neg hp] at h; simp at h

/-- A successful `matchUri` decomposes its input: the anchor, the captured
body (non-empty, quote-free), the closing quote, and the remainder. -/
theorem matchUri_decomp {l body after : List Char}
    (h : matchUri l = some (body, after)) :
    l = 'U' :: 'R' :: 'I' :: '=' :: dq :: (body ++ dq :: after) ∧
      body ≠ [] ∧ dq ∉ body := by
  match l with
  | [] => simp [matchUri] at h
  | [a] => simp [matchUri] at h
  | [a, b] => simp [matchUri] at h
  | [a, b, c] => simp [matchUri] at h
  | [a, b, c, d] => simp [matchUri] at h
  | a :: b :: c :: d :: e :: rest =>
    rw [show matchUri (a :: b :: c :: d :: e :: rest) =
      (if a = 'U' ∧ b = 'R' ∧ c = 'I' ∧ d = '=' ∧ e = dq then
        if rest.takeWhile notDq = [] then none
        else
          match rest.dropWhile notDq with
          | [] => none
          | _ :: after => some (rest.takeWhile notDq, after)
      else none) from rfl] at h
    by_cases hc : a = 'U' ∧ b = 'R' ∧ c = 'I' ∧ d = '=' ∧ e = dq
    · rw [if_pos hc] at h
      obtain ⟨ha, hb, hcc, hd, he⟩ := hc
      subst ha; subst hb; subst hcc; subst hd; subst he
      by_cases hb0 : rest.takeWhile notDq = []
      · rw [if_pos hb0] at h; exact absurd h (by simp)
      · rw [if_neg hb0] at h
        rcases hdw : rest.dropWhile notDq with _ | ⟨x, xs⟩
        · rw [hdw] at h; exact absurd h (by simp)
        · rw [hdw] at h
          simp only [Option.some.injEq, Prod.mk.injEq] at h
          obtain ⟨hbody, hafter⟩ := h
          have hx : x = dq := notDq_eq_false.mp (dropWhile_head_false hdw)
          refine ⟨?_, ?_, ?_⟩
          · have hsplit := List.takeWhile_append_dropWhile (p := notDq) (l := rest)
            rw [hdw, hx, hbody, hafter] at hsplit
            rw [← hsplit]
          · rw [← hbody]; exact hb0
          · intro hmem
            rw [← hbody] at hmem
            exact absurd (notDq_eq_true.mp (mem_takeWhile_true hmem)) (by simp)
    · rw [if_neg hc] at h; exact absurd h (by simp)

/-- The remainder after a successful match is strictly shorter. -/
theorem matchUri_after_lt {l : List Char} {p : List Char × List Char}
    (h : matchUri l = some p) : p.2.length < l.length := by
  obtain ⟨hdec, -, -⟩ := matchUri_decomp (show matchUri l = some (p.1, p.2) by rw [h])
  rw [hdec]
  simp [List.length_append]
  omega

def subUriF (repl : List Char → List Char) : Nat → List Char → List Char
  | _, [] => []
  | 0, l => l
  | fuel + 1, c :: t =>
    match matchUri (c :: t) with
    | some p => repl p.1 ++ subUriF repl fuel p.2
    | none => c :: subUriF repl fuel t

/-- `re.sub(r'URI="([^"]+)"', repl, ·)`: scan left to right; at each
position replace a leftmost match of the pattern with `repl` applied to
the captured group and continue after it, otherwise copy one character.
The fuel argument only drives structural recursion; every step consumes
at least one character, so the input length is always enough fuel. -/
def subUri (repl : List Char → List Char) (l : List Char) : List Char :=
  subUriF repl l.length l

theorem subUriF_eq_of_le {repl : List Char → List Char} :
    ∀ {fuel : Nat} {l : List Char}, l.length ≤ fuel →
      subUriF repl fuel l = subUriF repl l.length l := by
  intro fuel
  induction fuel using Nat.strong_induction_on with
  | _ fuel ih =>
    intro l hl
    rcases l with _ | ⟨c, t⟩
    · cases fuel <;> rfl
    · rcases fuel with _ | fuel
      · simp at hl
      · have hlen : t.length + 1 ≤ fuel + 1 := by simpa using hl
        show (match matchUri (c :: t) with
          | some p => repl p.1 ++ subUriF repl fuel p.2
          | none => c :: subUriF repl fuel t) =
          (match matchUri (c :: t) with
          | some p => repl p.1 ++ subUriF repl t.length p.2
          | none => c :: subUriF repl t.length t)
        rcases hm : matchUri (c :: t) with _ | ⟨b, a⟩
        · show c :: subUriF repl fuel t = c :: subUriF repl t.length t
          rw [ih fuel (Nat.lt_succ_self fuel) (by omega)]
        · have ha : a.length < t.length + 1 := by
            have := matchUri_after_lt (p := (b, a)) hm
            simpa using this
          show repl b ++ subUriF repl fuel a = repl b ++ subUriF repl t.length a
          have h1 : subUriF repl fuel a = subUriF repl a.length a :=
            ih fuel (Nat.lt_succ_self fuel) (by omega)
          have h2 : subUriF repl t.length a = subUriF repl a.length a := by
            rcases Nat.eq_or_lt_of_le (Nat.le_of_lt_succ ha) with he | hlt
            · rw [he]
            · exact ih t.length (by omega) (by omega)
          rw [h1, h2]

/-- The replacement function of app.py:451-459 (`replace_uri`): resolve the
captured URI against the base URL unless it already starts with `http`,
percent-encode it with no safe characters, and emit
`URI="/segment/{video_id}?url={encoded}"`. -/
def replUri (video_id base_url : String) (body : List Char) : List Char :=
  let target :=
    if httpPat.isPrefixOf body then body else (urljoin base_url ⟨body⟩).data
  ("URI=\"/segment/" ++ video_id ++ "?url=").data ++ quoteL target ++ [dq]

/-- The proxy reference emitted for a media/sub-playlist line:
`/segment/{video_id}?url={quote(target, safe='')}` (app.py:466-472). -/
def segRef (video_id : String) (target : List Char) : List Char :=
  ("/segment/" ++ video_id ++ "?url=").data ++ quoteL target

/-- The per-line transformation of `rewrite_m3u8_urls` (app.py:440-472):
strip the line; keep an empty result; in a comment line rewrite quoted
`URI="..."` attributes when the marker occurs; otherwise emit a proxy
reference for the line, joined against the base URL unless it starts with
`http`. -/
def rewriteLine (video_id base_url : String) (line : List Char) : List Char :=
  if pyStrip line = [] then pyStrip line
  else if ['#'].isPrefixOf (pyStrip line) then
    if containsSub uriPat (pyStrip line) then
      subUri (replUri video_id base_url) (pyStrip line)
    else pyStrip line
  else if httpPat.isPrefixOf (pyStrip line) then segRef video_id (pyStrip line)
  else segRef video_id (urljoin base_url ⟨pyStrip line⟩).data

/-- `rewrite_m3u8_urls(content, video_id, base_url)` (app.py:432-474):
split on `'\n'`, transform each line, and rejoin with `'\n'`. -/
def rewrite_m3u8_urls (content : String) (video_id base_url : String) : String :=
  ⟨joinSep nl ((splitSep nl content.data).map (rewriteLine video_id base_url))⟩

/-- An upstream HTTP response as observed through the `requests` library:
status code, case-insensitive header lookup, and the body (`r.text` for
playlists; the streamed bytes otherwise, which no claim inspects beyond
identity). The `headers` field is the lookup function of `requests`'
case-insensitive header mapping. -/
structure UpstreamResponse where
  status : Nat
  headers : String → Option String
  body : String

/-- Result of `requests.get`: a response, or a raised
`requests.exceptions.RequestException` (timeout, connection failure). -/
inductive FetchResult where
  | ok (r : UpstreamResponse)
  | netError

/-- A Flask response as built by the two routes: status code, the
`content_type` passed to `Response(...)`, the explicitly set headers in
insertion order, and the body. -/
structure HttpResponse where
  status : Nat
  contentType : String
  headers : List (String × String)
  body : String

/-- The three CORS headers set at app.py:550-552 and app.py:635-637. -/
def corsHeaders : List (String × String) :=
  [("Access-Control-Allow-Origin", "*"),
   ("Access-Control-Allow-Methods", "GET, OPTIONS"),
   ("Access-Control-Allow-Headers", "Range")]

/-- Flask `abort(code)`: the framework renders a minimal generic error
page; the handler attaches no headers and no body of its own (the CORS
lines are never reached), so the model carries an empty header list and
empty body. -/
def abortResp (code : Nat) : HttpResponse :=
  { status := code, contentType := "", headers := [], body := "" }

/-- Forward one upstream header when present, as in app.py:542-547 and
app.py:627-632 (`if name in r.headers: response.headers[name] = ...`). -/
def fwdHeader (r : UpstreamResponse) (name : String) : List (String × String) :=
  match r.headers name with
  | some v => [(name, v)]
  | none => []

/-- The catalog (`VIDEOS.get(video_id)` restricted to the field the proxy
core reads): an association list from video id to `original_url`. An
entry whose URL is `""` models a catalog record without a usable
`original_url` (both `None` and `""` are falsy at app.py:489). -/
def lookupCatalog (catalog : List (String × String)) (id : String) : Option String :=
  (catalog.find? (fun p => p.1 == id)).map (·.2)

/-- The playlist test of app.py:520 and app.py:609:
`'m3u8' in url or 'mpegurl' in content_type.lower()`. -/
def isPlaylist (url ct : String) : Bool :=
  containsStr url "m3u8" || containsStr (lowerStr ct) "mpegurl"

/-- `stream_video(video_id)` (app.py:476-558). Besides the response, the
second component records the upstream URLs fetched, in order, so that
"no upstream call is made" is expressible. The fixed outbound request
headers (user agent, referer, range forwarding) do not influence any
claim and are absorbed into the `fetch` parameter. -/
def stream_video (catalog : List (String × String)) (video_id : String)
    (fetch : String → FetchResult) : HttpResponse × List String :=
  match lookupCatalog catalog video_id with
  | none => (abortResp 404, [])
  | some original_url =>
    if original_url = "" then (abortResp 404, [])
    else
      match fetch original_url with
      | .netError => (abortResp 502, [original_url])
      | .ok r =>
        if r.status = 200 ∨ r.status = 206 then
          if isPlaylist original_url ((r.headers "Content-Type").getD "") then
            ({ status := 200, contentType := "application/vnd.apple.mpegurl",
               headers := corsHeaders,
               body := rewrite_m3u8_urls r.body video_id (get_base_url original_url) },
             [original_url])
          else
            ({ status := r.status,
               contentType := if (r.headers "Content-Type").getD "" = "" then
                 "application/octet-stream" else (r.headers "Content-Type").getD "",
               headers := fwdHeader r "Content-Length" ++ fwdHeader r "Content-Range" ++
                 fwdHeader r "Accept-Ranges" ++ corsHeaders,
               body := r.body },
             [original_url])
        else (abortResp 502, [original_url])

/-- `proxy_segment(video_id)` (app.py:561-643). `urlParam` is the value
`request.args.get('url')` returns (werkzeug has already applied one round
of query-string decoding to it); the route aborts 400 on a missing or
empty value, applies `unquote`, checks the catalog, and fetches. The
second component records the upstream URLs fetched, in order. -/
def proxy_segment (catalog : List (String × String)) (video_id : String)
    (urlParam : Option String) (fetch : String → FetchResult) :
    HttpResponse × List String :=
  match urlParam with
  | none => (abortResp 400, [])
  | some raw =>
    if raw = "" then (abortResp 400, [])
    else
      match lookupCatalog catalog video_id with
      | none => (abortResp 404, [])
      | some _ =>
        match fetch (unquoteStr raw) with
        | .netError => (abortResp 502, [(unquoteStr raw)])
        | .ok r =>
          if r.status = 200 ∨ r.status = 206 then
            if isPlaylist (unquoteStr raw) ((r.headers "Content-Type").getD "video/mp2t") then
              ({ status := 200, contentType := "application/vnd.apple.mpegurl",
                 headers := corsHeaders,
                 body := rewrite_m3u8_urls r.body video_id (get_base_url (unquoteStr raw)) },
               [(unquoteStr raw)])
            else
              ({ status := r.status,
                 contentType := (r.headers "Content-Type").getD "video/mp2t",
                 headers := fwdHeader r "Content-Length" ++ fwdHeader r "Content-Range" ++
                   fwdHeader r "Accept-Ranges" ++ corsHeaders,
                 body := r.body },
               [(unquoteStr raw)])
          else (abortResp 502, [(unquoteStr raw)])

/-- The in-memory catalog `VIDEOS` (app.py:73-139), restricted to the pair
the proxy core reads: id and `original_url`. -/
def VIDEOS : List (String × String) :=
  [("1", "https://srv317.avitine.icu/s4/0/dff9b3d6e8d7d407fbd46dff176fdc51d02b436dda7175a71c598e3877d9aada/RReFI3v_dmgAmPMfO3A1EQ/1766662469/storage7/movies/1690097806-16428256-suzume-2022/1ab65acda5fe3a3fe9d5ba2f8f011039.mp4/index.m3u8"),
   ("2", "https://srv317.avitine.icu/s4/0/8d2006d8999c1fb32f076df50a3eb033555caa111a3e98eb94e351cab476bad8/CRI4GtsZOQ2NZ_CI7R7RLg/1766663628/storage6/movies/1737202436-26932223-bhool-bhulaiyaa-3-2024/ba3bc8406df182a998416991b036f3d4.mp4/index.m3u8"),
   ("3", "https://srv317.bothoming.boats/s4/0/8f3fca44b42c26691b6bb569e877b6ece6a915fb5278128f32903b44fcef3465/k6irO19Lkxb-2b6xHuoqqQ/1766823758/storage1/movies/1758842342-34365591-mahavatar-narsimha-0/2d5ce30e0f67392be33d5304be7f545a.mp4/index.m3u8"),
   ("4", "https://srv317.bothoming.boats/s4/0/7d0a7b2321483a51d765e81ed70ac40e49d72bc36110a46c908825d2246c4485/VdboE7RxrQ-4ae2f3QX8zw/1766824385/storage2/movies/1758227376-4154796-avengers-endgame-2019/2afe755e5fe894e675105023ed2f9a5b.mp4/index.m3u8"),
   ("5", "https://srv317.bothoming.boats/s4/0/0653e37a943cc6b9ff9b667ed256e5e2419084c38b7e45d975910c5b970c8ee5/34Ecu-6xbiZ3SxrvYP7gOQ/1766825251/storage5/movies/1762728662-1375666-inception-2010/de3a4ad2556837d934caf7c91f78b49c.mp4/index.m3u8"),
   ("6", "https://vod3.cf.dmcdn.net/sec2(Zr9DoYUWJeij6YQPEr0zEvM7ADz6POUZKYSCc4uDmPndzwgNRpCT_iAx7m9ZQGDvb4XlmJ_5pZn6macT1t0VB9T5YvmSgggyvoeM4OUt8WPgn8Ql_2N38sP4RwtlsFrAVt6vqaMM7T2JugRgLm3zzc-rTgD2-qsx0HjkQBrjML8wAHP-N90QVVz_3UNpg4cz)/video/005/803/534308500_mp4_h264_aac_hq_7.m3u8")]

theorem splitSep_ne_nil (c : Char) : ∀ l, splitSep c l ≠ [] := by
  intro l
  induction l with
  | nil => simp [splitSep]
  | cons a t ih =>
    by_cases h : a = c
    · simp [splitSep, h]
    · simp only [splitSep, if_neg h]
      rcases hs : splitSep c t with _ | ⟨p, ps⟩ <;> simp

theorem not_mem_of_mem_splitSep {c : Char} :
    ∀ {l p}, p ∈ splitSep c l → c ∉ p := by
  intro l
  induction l with
  | nil =>
    intro p hp
    simp [splitSep] at hp
    simp [hp]
  | cons a t ih =>
    intro p hp
    by_cases h : a = c
    · rw [splitSep, if_pos h] at hp
      rcases List.mem_cons.mp hp with rfl | h2
      · simp
      · exact ih h2
    · rw [splitSep, if_neg h] at hp
      rcases hs : splitSep c t with _ | ⟨q, qs⟩
      · exact absurd hs (splitSep_ne_nil c t)
      · rw [hs] at hp
        rcases List.mem_cons.mp hp with rfl | h2
        · intro hmem
          rcases List.mem_cons.mp hmem with rfl | h3
          · exact h rfl
          · exact ih (hs ▸ List.mem_cons_self q qs) h3
        · exact ih (hs ▸ List.mem_cons_of_mem q h2)

theorem splitSep_no_sep {c : Char} : ∀ {a}, c ∉ a → splitSep c a = [a] := by
  intro a
  induction a with
  | nil => intro; simp [splitSep]
  | cons x t ih =>
    intro h
    have hx : ¬ x = c := fun hxc => h (hxc ▸ List.mem_cons_self x t)
    have ht : c ∉ t := fun hm => h (List.mem_cons_of_mem x hm)
    rw [splitSep, if_neg hx, ih ht]

theorem splitSep_append_cons {c : Char} :
    ∀ {a r}, c ∉ a → splitSep c (a ++ c :: r) = a :: splitSep c r := by
  intro a
  induction a with
  | nil => intro r _; simp [splitSep]
  | cons x t ih =>
    intro r h
    have hx : ¬ x = c := fun hxc => h (hxc ▸ List.mem_cons_self x t)
    have ht : c ∉ t := fun hm => h (List.mem_cons_of_mem x hm)
    rw [List.cons_append, splitSep, if_neg hx, ih ht]

theorem splitSep_joinSep {c : Char} :
    ∀ {ls}, ls ≠ [] → (∀ p ∈ ls, c ∉ p) → splitSep c (joinSep c ls) = ls := by
  intro ls
  induction ls with
  | nil => intro h; exact absurd rfl h
  | cons x t ih =>
    intro _ hmem
    rcases t with _ | ⟨y, t2⟩
    · rw [joinSep]
      exact splitSep_no_sep (hmem x (List.mem_cons_self x []))
    · rw [joinSep, splitSep_append_cons (hmem x (List.mem_cons_self x _))]
      rw [ih (by simp) (fun p hp => hmem p (List.mem_cons_of_mem x hp))]

theorem subUri_of_match {rep : List Char → List Char} {l b a : List Char}
    (h : matchUri l = some (b, a)) : subUri rep l = rep b ++ subUri rep a := by
  obtain ⟨hdec, -, -⟩ := matchUri_decomp h
  rcases hl : l with _ | ⟨c, t⟩
  · rw [hl] at hdec; cases hdec
  · rw [hl] at h
    show subUriF rep (c :: t).length (c :: t) = rep b ++ subUriF rep a.length a
    rw [show (c :: t).length = t.length + 1 from rfl]
    show (match matchUri (c :: t) with
      | some p => rep p.1 ++ subUriF rep t.length p.2
      | none => c :: subUriF rep t.length t) = rep b ++ subUriF rep a.length a
    rw [h]
    have ha : a.length ≤ t.length := by
      have := matchUri_after_lt (p := (b, a)) h
      simp at this
      omega
    show rep b ++ subUriF rep t.length a = rep b ++ subUriF rep a.length a
    rw [subUriF_eq_of_le ha]

theorem subUri_of_none {rep : List Char → List Char} {c : Char} {t : List Char}
    (h : matchUri (c :: t) = none) : subUri rep (c :: t) = c :: subUri rep t := by
  show subUriF rep (t.length + 1) (c :: t) = c :: subUriF rep t.length t
  show (match matchUri (c :: t) with
    | some p => rep p.1 ++ subUriF rep t.length p.2
    | none => c :: subUriF rep t.length t) = c :: subUriF rep t.length t
  rw [h]

theorem subUri_nil {rep : List Char → List Char} : subUri rep [] = [] := rfl

theorem matchUri_cons_neg {a b c d e : Char} {rest : List Char}
    (h : ¬(a = 'U' ∧ b = 'R' ∧ c = 'I' ∧ d = '=' ∧ e = dq)) :
    matchUri (a :: b :: c :: d :: e :: rest) = none := if_neg h

theorem matchUri_none_of_no_dq : ∀ {l : List Char}, dq ∉ l → matchUri l = none := by
  intro l h
  match l with
  | [] => rfl
  | [a] => rfl
  | [a, b] => rfl
  | [a, b, c] => rfl
  | [a, b, c, d] => rfl
  | a :: b :: c :: d :: e :: rest =>
    refine matchUri_cons_neg ?_
    rintro ⟨-, -, -, -, he⟩
    exact h (he ▸ (by simp : e ∈ a :: b :: c :: d :: e :: rest))

theorem subUri_no_dq {rep : List Char → List Char} :
    ∀ {l : List Char}, dq ∉ l → subUri rep l = l := by
  intro l
  induction l with
  | nil => intro; exact subUri_nil
  | cons c t ih =>
    intro h
    rw [subUri_of_none (matchUri_none_of_no_dq h)]
    rw [ih (fun hm => h (List.mem_cons_of_mem c hm))]

theorem matchUri_none_mid :
    ∀ {s r : List Char}, dq ∉ s → s ≠ [] →
      matchUri (s ++ 'U' :: 'R' :: 'I' :: '=' :: dq :: r) = none := by
  intro s r hs hne
  match s with
  | [] => exact absurd rfl hne
  | [a] =>
    refine matchUri_cons_neg ?_
    rintro ⟨-, h, -⟩
    exact absurd h (by decide)
  | [a, b] =>
    refine matchUri_cons_neg ?_
    rintro ⟨-, -, -, -, h⟩
    exact absurd h (by decide)
  | [a, b, c] =>
    refine matchUri_cons_neg ?_
    rintro ⟨-, -, -, -, h⟩
    exact absurd h (by decide)
  | [a, b, c, d] =>
    refine matchUri_cons_neg ?_
    rintro ⟨-, -, -, -, h⟩
    exact absurd h (by decide)
  | a :: b :: c :: d :: e :: t =>
    refine matchUri_cons_neg ?_
    rintro ⟨-, -, -, -, he⟩
    exact hs (he ▸ (by simp : e ∈ a :: b :: c :: d :: e :: t))

theorem subUri_copy {rep : List Char → List Char} :
    ∀ {s rest : List Char}, dq ∉ s →
      subUri rep (s ++ 'U' :: 'R' :: 'I' :: '=' :: dq :: rest) =
        s ++ subUri rep ('U' :: 'R' :: 'I' :: '=' :: dq :: rest) := by
  intro s
  induction s with
  | nil => intro rest _; simp
  | cons x t ih =>
    intro rest h
    have hnone := matchUri_none_mid (s := x :: t) (r := rest) h (by simp)
    rw [List.cons_append] at hnone ⊢
    rw [subUri_of_none hnone]
    rw [ih (fun hm => h (List.mem_cons_of_mem x hm)), List.cons_append]

theorem takeWhile_append_run {α : Type} {p : α → Bool} :
    ∀ {u : List α} {x : α} {r : List α}, (∀ c ∈ u, p c = true) → p x = false →
      (u ++ x :: r).takeWhile p = u ∧ (u ++ x :: r).dropWhile p = x :: r := by
  intro u
  induction u with
  | nil =>
    intro x r _ hx
    constructor
    · rw [List.nil_append, List.takeWhile_cons_of_neg (by simp [hx])]
    · rw [List.nil_append, List.dropWhile_cons_of_neg (by simp [hx])]
  | cons a t ih =>
    intro x r hall hx
    have ha : p a = true := hall a (List.mem_cons_self a t)
    have ht := ih (x := x) (r := r) (fun c hc => hall c (List.mem_cons_of_mem a hc)) hx
    constructor
    · rw [List.cons_append, List.takeWhile_cons_of_pos ha, ht.1]
    · rw [List.cons_append, List.dropWhile_cons_of_pos ha, ht.2]

theorem matchUri_anchor {u post : List Char} (hu : u ≠ []) (hq : dq ∉ u) :
    matchUri ('U' :: 'R' :: 'I' :: '=' :: dq :: (u ++ dq :: post)) = some (u, post) := by
  have hall : ∀ c ∈ u, notDq c = true :=
    fun c hc => notDq_eq_true.mpr (fun hc2 => hq (hc2 ▸ hc))
  have hdq : notDq dq = false := by simp [notDq]
  have hrun := takeWhile_append_run (u := u) (x := dq) (r := post) hall hdq
  rw [show matchUri ('U' :: 'R' :: 'I' :: '=' :: dq :: (u ++ dq :: post)) =
    (if 'U' = 'U' ∧ 'R' = 'R' ∧ 'I' = 'I' ∧ '=' = '=' ∧ dq = dq then
      if (u ++ dq :: post).takeWhile notDq = [] then none
      else
        match (u ++ dq :: post).dropWhile notDq with
        | [] => none
        | _ :: after => some ((u ++ dq :: post).takeWhile notDq, after)
    else none) from rfl]
  rw [if_pos ⟨rfl, rfl, rfl, rfl, rfl⟩, hrun.1, hrun.2, if_neg hu]

theorem str_data_append (a b : String) : (a ++ b).data = a.data ++ b.data := rfl

theorem str_mk_data (s : String) : (⟨s.data⟩ : String) = s := rfl

theorem hexDigitChar_ne_nl (n : Nat) : hexDigitChar n ≠ nl := by
  unfold hexDigitChar
  split <;> decide

theorem mem_quoteChar_ne_nl {c x : Char} (h : x ∈ quoteChar c) : x ≠ nl := by
  unfold quoteChar at h
  by_cases hs : safeChar c
  · rw [if_pos hs] at h
    rcases List.mem_singleton.mp h with rfl
    intro hx
    rw [hx] at hs
    exact absurd hs (by decide)
  · rw [if_neg hs] at h
    rcases List.mem_flatMap.mp h with ⟨b, -, hb⟩
    unfold pctByteChars at hb
    rcases List.mem_cons.mp hb with rfl | hb2
    · decide
    rcases List.mem_cons.mp hb2 with rfl | hb3
    · exact hexDigitChar_ne_nl _
    rcases List.mem_cons.mp hb3 with rfl | hb4
    · exact hexDigitChar_ne_nl _
    · simp at hb4

theorem quoteL_no_nl (l : List Char) : nl ∉ quoteL l := by
  intro h
  rcases List.mem_flatMap.mp h with ⟨c, -, hc⟩
  exact mem_quoteChar_ne_nl hc rfl

theorem mem_dropWhile_imp {α : Type} {p : α → Bool} :
    ∀ {l : List α} {a : α}, a ∈ l.dropWhile p → a ∈ l := by
  intro l
  induction l with
  | nil => intro a h; simp [List.dropWhile] at h
  | cons x t ih =>
    intro a h
    by_cases hp : p x
    · rw [List.dropWhile_cons_of_pos hp] at h
      exact List.mem_cons_of_mem x (ih h)
    · rw [List.dropWhile_cons_of_neg hp] at h
      exact h

theorem pyStrip_subset {l : List Char} {a : Char} (h : a ∈ pyStrip l) : a ∈ l := by
  unfold pyStrip at h
  rw [List.mem_reverse] at h
  have h2 := mem_dropWhile_imp h
  rw [List.mem_reverse] at h2
  exact mem_dropWhile_imp h2

theorem dropWhile_eq_nil_of_all {α : Type} {p : α → Bool} :
    ∀ {l : List α}, (∀ a ∈ l, p a = true) → l.dropWhile p = [] := by
  intro l
  induction l with
  | nil => intro; rfl
  | cons x t ih =>
    intro h
    rw [List.dropWhile_cons_of_pos (h x (List.mem_cons_self x t))]
    exact ih (fun a ha => h a (List.mem_cons_of_mem x ha))

theorem pyStrip_all_space {l : List Char} (h : ∀ a ∈ l, pyIsSpace a = true) :
    pyStrip l = [] := by
  unfold pyStrip
  rw [dropWhile_eq_nil_of_all h]
  rfl

theorem segRef_no_nl {v : String} (hv : nl ∉ v.data) (target : List Char) :
    nl ∉ segRef v target := by
  unfold segRef
  intro h
  rcases List.mem_append.mp h with h | h
  · rw [str_data_append, str_data_append] at h
    rcases List.mem_append.mp h with h | h
    · rcases List.mem_append.mp h with h | h
      · exact absurd h (by decide)
      · exact hv h
    · exact absurd h (by decide)
  · exact quoteL_no_nl target h

theorem replUri_no_nl {v b : String} (hv : nl ∉ v.data) (body : List Char) :
    nl ∉ replUri v b body := by
  unfold replUri
  intro h
  rcases List.mem_append.mp h with h | h
  · rcases List.mem_append.mp h with h | h
    · rw [str_data_append, str_data_append] at h
      rcases List.mem_append.mp h with h | h
      · rcases List.mem_append.mp h with h | h
        · exact absurd h (by decide)
        · exact hv h
      · exact absurd h (by decide)
    · exact quoteL_no_nl _ h
  · exact absurd (List.mem_singleton.mp h) (by decide)

theorem subUri_no_nl {rep : List Char → List Char}
    (hrep : ∀ body, nl ∉ rep body) :
    ∀ (n : Nat) (l : List Char), l.length ≤ n → nl ∉ l → nl ∉ subUri rep l := by
  intro n
  induction n with
  | zero =>
    intro l hl _
    have h0 : l = [] := List.eq_nil_of_length_eq_zero (Nat.le_zero.mp hl)
    subst h0
    rw [subUri_nil]
    simp
  | succ n ih =>
    intro l hl hnl
    rcases hm : matchUri l with _ | ⟨b, a⟩
    · rcases l with _ | ⟨c, t⟩
      · rw [subUri_nil]; simp
      · rw [subUri_of_none hm]
        intro hmem
        rcases List.mem_cons.mp hmem with rfl | h2
        · exact hnl (List.mem_cons_self _ _)
        · have hlen : t.length ≤ n := by
            simp [List.length_cons] at hl
            omega
          exact ih t hlen (fun hm2 => hnl (List.mem_cons_of_mem c hm2)) h2
    · rw [subUri_of_match hm]
      obtain ⟨hdec, -, -⟩ := matchUri_decomp hm
      intro hmem
      rcases List.mem_append.mp hmem with h | h
      · exact hrep b h
      · have hlen : a.length ≤ n := by
          have := matchUri_after_lt (p := (b, a)) hm
          simp at this
          omega
        have hna : nl ∉ a := by
          intro hna
          exact hnl (hdec ▸ (by simp [hna] : nl ∈ 'U' :: 'R' :: 'I' :: '=' :: dq :: (b ++ dq :: a)))
        exact ih a hlen hna h

theorem rewriteLine_no_nl {v b : String} (hv : nl ∉ v.data) {line : List Char}
    (hline : nl ∉ line) : nl ∉ rewriteLine v b line := by
  have hstrip : nl ∉ pyStrip line := fun h => hline (pyStrip_subset h)
  unfold rewriteLine
  by_cases h1 : pyStrip line = []
  · rw [if_pos h1]; exact hstrip
  · rw [if_neg h1]
    by_cases h2 : ['#'].isPrefixOf (pyStrip line)
    · rw [if_pos h2]
      by_cases h3 : containsSub uriPat (pyStrip line)
      · rw [if_pos h3]
        exact subUri_no_nl (replUri_no_nl hv) (pyStrip line).length (pyStrip line)
          le_rfl hstrip
      · rw [if_neg h3]; exact hstrip
    · rw [if_neg h2]
      by_cases h4 : httpPat.isPrefixOf (pyStrip line)
      · rw [if_pos h4]; exact segRef_no_nl hv _
      · rw [if_neg h4]; exact segRef_no_nl hv _

theorem isSafeByte_ne_37 {b : Nat} (h : isSafeByte b = true) : b ≠ 37 := by
  intro hb
  rw [hb] at h
  exact absurd h (by decide)

theorem hexVal_hexDigitByte {n : Nat} (h : n < 16) :
    hexVal (hexDigitByte n) = some n := by
  unfold hexVal hexDigitByte
  by_cases h10 : n < 10
  · rw [if_pos h10, if_pos (by omega : 48 ≤ 48 + n ∧ 48 + n ≤ 57)]
    congr 1
    omega
  · rw [if_neg h10, if_neg (by omega : ¬(48 ≤ 55 + n ∧ 55 + n ≤ 57)),
      if_pos (by omega : 65 ≤ 55 + n ∧ 55 + n ≤ 70)]
    congr 1
    omega

theorem pctDec_cons_ne {b : Nat} {X : List Nat} (h : b ≠ 37) :
    pctDec (b :: X) = b :: pctDec X := by
  match X with
  | [] => rfl
  | [c] => rfl
  | h1 :: h2 :: rest => simp [pctDec, h]

theorem pctDec_escape {h1 h2 x y : Nat} {X : List Nat}
    (hh1 : hexVal h1 = some x) (hh2 : hexVal h2 = some y) :
    pctDec (37 :: h1 :: h2 :: X) = (16 * x + y) :: pctDec X := by
  simp [pctDec, hh1, hh2]

theorem pctDec_pctEnc : ∀ {bs : List Nat}, (∀ b ∈ bs, b < 256) →
    pctDec (pctEnc bs) = bs := by
  intro bs
  induction bs with
  | nil => intro; rfl
  | cons b t ih =>
    intro h
    have hb : b < 256 := h b (List.mem_cons_self b t)
    have ht := ih (fun a ha => h a (List.mem_cons_of_mem b ha))
    rw [show pctEnc (b :: t) = pctEncByte b ++ pctEnc t from rfl]
    unfold pctEncByte
    by_cases hs : isSafeByte b
    · rw [if_pos hs, List.singleton_append, pctDec_cons_ne (isSafeByte_ne_37 hs), ht]
    · rw [if_neg hs]
      rw [show ([37, hexDigitByte (b / 16), hexDigitByte (b % 16)] ++ pctEnc t) =
        37 :: hexDigitByte (b / 16) :: hexDigitByte (b % 16) :: pctEnc t from rfl]
      rw [pctDec_escape (hexVal_hexDigitByte (by omega : b / 16 < 16))
        (hexVal_hexDigitByte (by omega : b % 16 < 16)), ht]
      congr 1
      omega

theorem containsSub_of_isPrefixOf {pat l : List Char} (h : pat.isPrefixOf l) :
    containsSub pat l = true := by
  cases l with
  | nil =>
    cases pat with
    | nil => rfl
    | cons a t => simp [List.isPrefixOf] at h
  | cons c t => simp [containsSub, h]

theorem containsSub_append_right {pat l : List Char} (h : containsSub pat l = true) :
    ∀ x, containsSub pat (x ++ l) = true := by
  intro x
  induction x with
  | nil => simpa using h
  | cons a t ih => simp [containsSub, ih]

/-- C5: rewriting the single playlist line `segment001.ts` with base URL
`https://cdn.example.com/path/to/` and videoId "7" produces exactly the
line `/segment/7?url=https%3A%2F%2Fcdn.example.com%2Fpath%2Fto%2Fsegment001.ts`. -/
theorem C5_example_segment_rewrite :
    rewrite_m3u8_urls "segment001.ts" "7" "https://cdn.example.com/path/to/" =
      "/segment/7?url=https%3A%2F%2Fcdn.example.com%2Fpath%2Fto%2Fsegment001.ts" := by
  decide

/-- C3 counterexample: the claim says a whitespace-only line passes through
character-for-character unchanged, but `rewrite_m3u8_urls` strips every
line first, so the single-space line becomes the empty line. -/
theorem C3_counterexample_space_line :
    rewrite_m3u8_urls " " "7" "https://cdn.example.com/path/to/" = "" ∧
      ("" : String) ≠ " " := by
  constructor
  · decide
  · decide

/-- C3 (amended): every line that is empty or consists only of whitespace
is rewritten to the empty line (`line.strip()` is taken first at
app.py:441, so an empty line is unchanged and a whitespace-only line
loses its whitespace). -/
theorem C3_blank_line_to_empty (v b : String) (line : List Char)
    (h : ∀ c ∈ line, pyIsSpace c = true) :
    rewriteLine v b line = [] := by
  unfold rewriteLine
  rw [if_pos (pyStrip_all_space h)]
  exact pyStrip_all_space h

theorem C3_witness :
    (∀ c ∈ (" \t".data), pyIsSpace c = true) ∧
      rewriteLine "7" "https://cdn.example.com/path/to/" " \t".data = [] :=
  ⟨by decide, C3_blank_line_to_empty "7" "https://cdn.example.com/path/to/" _ (by decide)⟩

/-- C2 counterexample: the claim quantifies over every videoId, but a
videoId containing the line separator is spliced verbatim into the
rewritten reference, so the single-line input `seg.ts` rewrites to a
two-line output. -/
theorem C2_counterexample_newline_videoId :
    (splitSep nl (rewrite_m3u8_urls "seg.ts" "a\nb" "https://h/p/").data).length = 2 ∧
      (splitSep nl ("seg.ts" : String).data).length = 1 ∧ (2 : Nat) ≠ 1 := by
  refine ⟨?_, ?_, by decide⟩
  · decide
  · decide

/-- C2 (amended): for every playlist text, every base URL, and every
videoId that does not contain the newline separator, the rewriter splits
the input on `'\n'`, transforms each line independently in order, and
rejoins with `'\n'`; the output lines are exactly the per-line transforms
of the input lines, so the line count is preserved and no line is dropped
or merged. -/
theorem C2_lines_preserved (content v b : String) (hv : nl ∉ v.data) :
    splitSep nl (rewrite_m3u8_urls content v b).data =
      (splitSep nl content.data).map (rewriteLine v b) ∧
    (splitSep nl (rewrite_m3u8_urls content v b).data).length =
      (splitSep nl content.data).length := by
  have hsplit : splitSep nl (rewrite_m3u8_urls content v b).data =
      (splitSep nl content.data).map (rewriteLine v b) := by
    unfold rewrite_m3u8_urls
    refine splitSep_joinSep ?_ ?_
    · intro hmap
      exact splitSep_ne_nil nl content.data (List.map_eq_nil_iff.mp hmap)
    · intro p hp
      rcases List.mem_map.mp hp with ⟨line, hline, rfl⟩
      exact rewriteLine_no_nl hv (not_mem_of_mem_splitSep hline)
  refine ⟨hsplit, ?_⟩
  rw [hsplit, List.length_map]

theorem C2_witness :
    (nl ∉ ("7" : String).data) ∧
      splitSep nl (rewrite_m3u8_urls "#EXTM3U\nseg.ts" "7" "https://h/p/").data =
        (splitSep nl ("#EXTM3U\nseg.ts" : String).data).map
          (rewriteLine "7" "https://h/p/") :=
  ⟨by decide, (C2_lines_preserved "#EXTM3U\nseg.ts" "7" "https://h/p/" (by decide)).1⟩

theorem uriPat_isPrefixOf (rest : List Char) :
    uriPat.isPrefixOf ('U' :: 'R' :: 'I' :: '=' :: dq :: rest) = true := by
  simp [uriPat, List.isPrefixOf]

/-- C6 counterexample: the claim says every character of the directive line
outside the quoted URI value is left untouched, but `rewrite_m3u8_urls`
strips each line first (app.py:441), so the trailing space of this
`#EXT-X-KEY` line is dropped. -/
theorem C6_counterexample_stripped_comment :
    rewrite_m3u8_urls "#EXT-X-KEY:METHOD=AES-128,URI=\"key.bin\" " "7"
        "https://cdn.example.com/path/to/" =
      "#EXT-X-KEY:METHOD=AES-128,URI=\"/segment/7?url=https%3A%2F%2Fcdn.example.com%2Fpath%2Fto%2Fkey.bin\"" ∧
    ("#EXT-X-KEY:METHOD=AES-128,URI=\"/segment/7?url=https%3A%2F%2Fcdn.example.com%2Fpath%2Fto%2Fkey.bin\"" : String) ≠
      "#EXT-X-KEY:METHOD=AES-128,URI=\"/segment/7?url=https%3A%2F%2Fcdn.example.com%2Fpath%2Fto%2Fkey.bin\" " := by
  constructor
  · decide
  · decide

/-- C6 (amended): for every comment line that carries no surrounding
whitespace (the rewriter strips each line first) and contains a quoted
URI attribute `URI="u"` with a non-empty quote-free value, written as
`pre ++ URI="u" ++ post` with no other double quote in `pre`, `u` or
`post`, the rewriter replaces exactly the quoted value with
`/segment/{videoId}?url={percent-encoded URI}` — resolving `u` against
the base URL unless it starts with `http` — and leaves every other
character of the stripped line untouched. -/
theorem C6_uri_attribute_rewrite (v b pre u post : String)
    (hpre : ['#'].isPrefixOf pre.data = true)
    (hq1 : dq ∉ pre.data) (hu : u.data ≠ []) (hq2 : dq ∉ u.data)
    (hq3 : dq ∉ post.data)
    (hstrip : pyStrip (pre ++ "URI=\"" ++ u ++ "\"" ++ post).data =
      (pre ++ "URI=\"" ++ u ++ "\"" ++ post).data) :
    rewriteLine v b (pre ++ "URI=\"" ++ u ++ "\"" ++ post).data =
      (pre ++ "URI=\"/segment/" ++ v ++ "?url=" ++
        (if httpPat.isPrefixOf u.data then quoteStr u else quoteStr (urljoin b u)) ++
        "\"" ++ post).data := by
  have hURId : ("URI=\"" : String).data = 'U' :: 'R' :: 'I' :: '=' :: [dq] := rfl
  have hdqd : ("\"" : String).data = [dq] := rfl
  have hdata : (pre ++ "URI=\"" ++ u ++ "\"" ++ post).data =
      pre.data ++ ('U' :: 'R' :: 'I' :: '=' :: dq :: (u.data ++ dq :: post.data)) := by
    rw [str_data_append, str_data_append, str_data_append, str_data_append,
      hURId, hdqd]
    simp [List.append_assoc]
  have hne : (pre ++ "URI=\"" ++ u ++ "\"" ++ post).data ≠ [] := by
    rw [hdata]
    rcases pre.data with _ | ⟨c, cs⟩ <;> simp
  have hhash : ['#'].isPrefixOf (pre ++ "URI=\"" ++ u ++ "\"" ++ post).data = true := by
    rw [hdata]
    rcases hp : pre.data with _ | ⟨c, cs⟩
    · rw [hp] at hpre
      exact absurd hpre (by decide)
    · rw [hp] at hpre
      have hc : '#' = c := by simpa [List.isPrefixOf] using hpre
      cases hc
      simp [List.isPrefixOf]
  have hcont : containsSub uriPat (pre ++ "URI=\"" ++ u ++ "\"" ++ post).data = true := by
    rw [hdata]
    exact containsSub_append_right
      (containsSub_of_isPrefixOf (uriPat_isPrefixOf (u.data ++ dq :: post.data))) pre.data
  have hmain : rewriteLine v b (pre ++ "URI=\"" ++ u ++ "\"" ++ post).data =
      subUri (replUri v b) (pre ++ "URI=\"" ++ u ++ "\"" ++ post).data := by
    unfold rewriteLine
    rw [hstrip, if_neg hne, if_pos hhash, if_pos hcont]
  rw [hmain, hdata, subUri_copy hq1, subUri_of_match (matchUri_anchor hu hq2),
    subUri_no_dq hq3]
  have hrepl : replUri v b u.data =
      ("URI=\"/segment/" ++ v ++ "?url=").data ++
        quoteL (if httpPat.isPrefixOf u.data then u.data else (urljoin b u).data) ++ [dq] := by
    unfold replUri
    rw [str_mk_data]
  rw [hrepl]
  by_cases hhttp : httpPat.isPrefixOf u.data
  · rw [if_pos hhttp, if_pos hhttp]
    simp [str_data_append, quoteStr, List.append_assoc, dq]
  · rw [if_neg hhttp, if_neg hhttp]
    simp [str_data_append, quoteStr, List.append_assoc, dq]

theorem C6_witness :
    ((['#'].isPrefixOf ("#EXT-X-KEY:METHOD=AES-128," : String).data = true) ∧
      ("key.bin" : String).data ≠ [] ∧
      pyStrip ("#EXT-X-KEY:METHOD=AES-128," ++ "URI=\"" ++ "key.bin" ++ "\"" ++ ",IV=0x9f").data =
        ("#EXT-X-KEY:METHOD=AES-128," ++ "URI=\"" ++ "key.bin" ++ "\"" ++ ",IV=0x9f").data) ∧
    rewriteLine "7" "https://cdn.example.com/path/to/"
        ("#EXT-X-KEY:METHOD=AES-128," ++ "URI=\"" ++ "key.bin" ++ "\"" ++ ",IV=0x9f").data =
      ("#EXT-X-KEY:METHOD=AES-128," ++ "URI=\"/segment/" ++ "7" ++ "?url=" ++
        (if httpPat.isPrefixOf ("key.bin" : String).data then quoteStr "key.bin"
         else quoteStr (urljoin "https://cdn.example.com/path/to/" "key.bin")) ++
        "\"" ++ ",IV=0x9f").data :=
  ⟨⟨by decide, by decide, by decide⟩,
    C6_uri_attribute_rewrite "7" "https://cdn.example.com/path/to/"
      "#EXT-X-KEY:METHOD=AES-128," "key.bin" ",IV=0x9f"
      (by decide) (by decide) (by decide) (by decide) (by decide) (by decide)⟩

theorem stream_video_passthrough {catalog : List (String × String)} {vid url : String}
    {fetch : String → FetchResult} {r : UpstreamResponse}
    (hlook : lookupCatalog catalog vid = some url) (hurl : url ≠ "")
    (hf : fetch url = .ok r) (hst : r.status = 200 ∨ r.status = 206)
    (hnp : isPlaylist url ((r.headers "Content-Type").getD "") = false) :
    stream_video catalog vid fetch =
      ({ status := r.status,
         contentType := if (r.headers "Content-Type").getD "" = "" then
           "application/octet-stream" else (r.headers "Content-Type").getD "",
         headers := fwdHeader r "Content-Length" ++ fwdHeader r "Content-Range" ++
           fwdHeader r "Accept-Ranges" ++ corsHeaders,
         body := r.body }, [url]) := by
  unfold stream_video
  split
  next hl => rw [hlook] at hl; cases hl
  next ou hl =>
    rw [hlook] at hl
    injection hl with hl
    subst hl
    rw [if_neg hurl]
    split
    next hf2 => rw [hf] at hf2; cases hf2
    next r2 hf2 =>
      rw [hf] at hf2
      injection hf2 with hf2
      subst hf2
      rw [if_pos hst, if_neg (by simp [hnp])]

theorem stream_video_playlist {catalog : List (String × String)} {vid url : String}
    {fetch : String → FetchResult} {r : UpstreamResponse}
    (hlook : lookupCatalog catalog vid = some url) (hurl : url ≠ "")
    (hf : fetch url = .ok r) (hst : r.status = 200 ∨ r.status = 206)
    (hpl : isPlaylist url ((r.headers "Content-Type").getD "") = true) :
    stream_video catalog vid fetch =
      ({ status := 200, contentType := "application/vnd.apple.mpegurl",
         headers := corsHeaders,
         body := rewrite_m3u8_urls r.body vid (get_base_url url) }, [url]) := by
  unfold stream_video
  split
  next hl => rw [hlook] at hl; cases hl
  next ou hl =>
    rw [hlook] at hl
    injection hl with hl
    subst hl
    rw [if_neg hurl]
    split
    next hf2 => rw [hf] at hf2; cases hf2
    next r2 hf2 =>
      rw [hf] at hf2
      injection hf2 with hf2
      subst hf2
      rw [if_pos hst, if_pos hpl]

theorem stream_video_badstatus {catalog : List (String × String)} {vid url : String}
    {fetch : String → FetchResult} {r : UpstreamResponse}
    (hlook : lookupCatalog catalog vid = some url) (hurl : url ≠ "")
    (hf : fetch url = .ok r) (h200 : r.status ≠ 200) (h206 : r.status ≠ 206) :
    stream_video catalog vid fetch = (abortResp 502, [url]) := by
  unfold stream_video
  split
  next hl => rw [hlook] at hl; cases hl
  next ou hl =>
    rw [hlook] at hl
    injection hl with hl
    subst hl
    rw [if_neg hurl]
    split
    next hf2 => rfl
    next r2 hf2 =>
      rw [hf] at hf2
      injection hf2 with hf2
      subst hf2
      rw [if_neg (by rintro (h | h) <;> [exact h200 h; exact h206 h])]

theorem stream_video_neterror {catalog : List (String × String)} {vid url : String}
    {fetch : String → FetchResult}
    (hlook : lookupCatalog catalog vid = some url) (hurl : url ≠ "")
    (hf : fetch url = .netError) :
    stream_video catalog vid fetch = (abortResp 502, [url]) := by
  unfold stream_video
  split
  next hl => rw [hlook] at hl; cases hl
  next ou hl =>
    rw [hlook] at hl
    injection hl with hl
    subst hl
    rw [if_neg hurl]
    split
    next hf2 => rfl
    next r2 hf2 =>
      rw [hf] at hf2
      cases hf2

theorem proxy_segment_passthrough {catalog : List (String × String)} {vid p url : String}
    {fetch : String → FetchResult} {r : UpstreamResponse}
    (hp : p ≠ "") (hlook : lookupCatalog catalog vid = some url)
    (hf : fetch (unquoteStr p) = .ok r) (hst : r.status = 200 ∨ r.status = 206)
    (hnp : isPlaylist (unquoteStr p) ((r.headers "Content-Type").getD "video/mp2t") = false) :
    proxy_segment catalog vid (some p) fetch =
      ({ status := r.status,
         contentType := (r.headers "Content-Type").getD "video/mp2t",
         headers := fwdHeader r "Content-Length" ++ fwdHeader r "Content-Range" ++
           fwdHeader r "Accept-Ranges" ++ corsHeaders,
         body := r.body }, [unquoteStr p]) := by
  unfold proxy_segment
  split
  next h => cases h
  next raw h =>
    injection h with h
    subst h
    rw [if_neg hp]
    split
    next hl => rw [hlook] at hl; cases hl
    next ou hl =>
      split
      next hf2 => rw [hf] at hf2; cases hf2
      next r2 hf2 =>
        rw [hf] at hf2
        injection hf2 with hf2
        subst hf2
        rw [if_pos hst, if_neg (by simp [hnp])]

theorem proxy_segment_playlist {catalog : List (String × String)} {vid p url : String}
    {fetch : String → FetchResult} {r : UpstreamResponse}
    (hp : p ≠ "") (hlook : lookupCatalog catalog vid = some url)
    (hf : fetch (unquoteStr p) = .ok r) (hst : r.status = 200 ∨ r.status = 206)
    (hpl : isPlaylist (unquoteStr p) ((r.headers "Content-Type").getD "video/mp2t") = true) :
    proxy_segment catalog vid (some p) fetch =
      ({ status := 200, contentType := "application/vnd.apple.mpegurl",
         headers := corsHeaders,
         body := rewrite_m3u8_urls r.body vid (get_base_url (unquoteStr p)) },
       [unquoteStr p]) := by
  unfold proxy_segment
  split
  next h => cases h
  next raw h =>
    injection h with h
    subst h
    rw [if_neg hp]
    split
    next hl => rw [hlook] at hl; cases hl
    next ou hl =>
      split
      next hf2 => rw [hf] at hf2; cases hf2
      next r2 hf2 =>
        rw [hf] at hf2
        injection hf2 with hf2
        subst hf2
        rw [if_pos hst, if_pos hpl]

theorem proxy_segment_badstatus {catalog : List (String × String)} {vid p url : String}
    {fetch : String → FetchResult} {r : UpstreamResponse}
    (hp : p ≠ "") (hlook : lookupCatalog catalog vid = some url)
    (hf : fetch (unquoteStr p) = .ok r) (h200 : r.status ≠ 200) (h206 : r.status ≠ 206) :
    proxy_segment catalog vid (some p) fetch = (abortResp 502, [unquoteStr p]) := by
  unfold proxy_segment
  split
  next h => cases h
  next raw h =>
    injection h with h
    subst h
    rw [if_neg hp]
    split
    next hl => rw [hlook] at hl; cases hl
    next ou hl =>
      split
      next hf2 => rfl
      next r2 hf2 =>
        rw [hf] at hf2
        injection hf2 with hf2
        subst hf2
        rw [if_neg (by rintro (h | h) <;> [exact h200 h; exact h206 h])]

theorem proxy_segment_neterror {catalog : List (String × String)} {vid p url : String}
    {fetch : String → FetchResult}
    (hp : p ≠ "") (hlook : lookupCatalog catalog vid = some url)
    (hf : fetch (unquoteStr p) = .netError) :
    proxy_segment catalog vid (some p) fetch = (abortResp 502, [unquoteStr p]) := by
  unfold proxy_segment
  split
  next h => cases h
  next raw h =>
    injection h with h
    subst h
    rw [if_neg hp]
    split
    next hl => rw [hlook] at hl; cases hl
    next ou hl =>
      split
      next hf2 => rfl
      next r2 hf2 =>
        rw [hf] at hf2
        cases hf2

/-- A one-entry catalog whose URL is an HLS playlist, used as test input. -/
def demoCatalog : List (String × String) := [("1", "https://h.example/v/index.m3u8")]

/-- A one-entry catalog whose URL is a plain media file, used as test input. -/
def demoCatalog2 : List (String × String) := [("2", "https://h.example/v/movie.mp4")]

/-- A plain 200 upstream response with a content type. -/
def demoOk : UpstreamResponse :=
  { status := 200,
    headers := fun n => if n = "Content-Type" then some "video/mp4" else none,
    body := "seg0.ts" }

/-- A 206 upstream response carrying range-related headers (no
Accept-Ranges, so forwarding "only when present" is observable). -/
def demoPartial : UpstreamResponse :=
  { status := 206,
    headers := fun n =>
      if n = "Content-Type" then some "video/mp4"
      else if n = "Content-Range" then some "bytes 1000-2000/4000"
      else if n = "Content-Length" then some "1001"
      else none,
    body := "bytes" }

/-- An upstream rejection (hot-link protection style 403). -/
def demo403 : UpstreamResponse :=
  { status := 403, headers := fun _ => none, body := "Forbidden" }

/-- A fetch stub returning `demoOk` for every URL. -/
def demoFetch : String → FetchResult := fun _ => FetchResult.ok demoOk

/-- A fetch stub returning `demoPartial` for every URL. -/
def demoFetchPartial : String → FetchResult := fun _ => FetchResult.ok demoPartial

theorem fwd_headers_mem (r : UpstreamResponse) (v2 : String) :
    ((("Content-Length", v2) ∈ fwdHeader r "Content-Length" ++ fwdHeader r "Content-Range" ++
        fwdHeader r "Accept-Ranges" ++ corsHeaders) ↔ r.headers "Content-Length" = some v2) ∧
    ((("Content-Range", v2) ∈ fwdHeader r "Content-Length" ++ fwdHeader r "Content-Range" ++
        fwdHeader r "Accept-Ranges" ++ corsHeaders) ↔ r.headers "Content-Range" = some v2) ∧
    ((("Accept-Ranges", v2) ∈ fwdHeader r "Content-Length" ++ fwdHeader r "Content-Range" ++
        fwdHeader r "Accept-Ranges" ++ corsHeaders) ↔ r.headers "Accept-Ranges" = some v2) := by
  rcases hCL : r.headers "Content-Length" with _ | vCL <;>
    rcases hCR : r.headers "Content-Range" with _ | vCR <;>
      rcases hAR : r.headers "Accept-Ranges" with _ | vAR <;>
        simp [fwdHeader, hCL, hCR, hAR, corsHeaders, Prod.ext_iff, eq_comm]

/-- C8: for every videoId absent from the catalog, `GET /stream/{videoId}`
responds 404 and performs no upstream fetch (the recorded fetch list is
empty: the catalog lookup happens before any network call). -/
theorem C8_unknown_id_404_no_fetch (catalog : List (String × String))
    (video_id : String) (fetch : String → FetchResult)
    (h : lookupCatalog catalog video_id = none) :
    stream_video catalog video_id fetch = (abortResp 404, []) := by
  unfold stream_video
  split
  next hl => rfl
  next ou hl => rw [h] at hl; cases hl

theorem C8_witness :
    lookupCatalog VIDEOS "999" = none ∧
      stream_video VIDEOS "999" (fun _ => FetchResult.netError) = (abortResp 404, []) :=
  ⟨by decide, C8_unknown_id_404_no_fetch VIDEOS "999" _ (by decide)⟩

/-- C9: a fetched status other than 200/206 and any network-level failure
make both routes answer with the bodyless `abort(502)` response (no
exception text is part of the response), and a missing or empty `url`
query parameter makes `/segment` answer `abort(400)` with no fetch
recorded. -/
theorem C9_error_responses (catalog : List (String × String)) (vid url p : String)
    (fetch : String → FetchResult) (r : UpstreamResponse) :
    (lookupCatalog catalog vid = some url → url ≠ "" → fetch url = .ok r →
      r.status ≠ 200 → r.status ≠ 206 →
      stream_video catalog vid fetch = (abortResp 502, [url])) ∧
    (lookupCatalog catalog vid = some url → url ≠ "" → fetch url = .netError →
      stream_video catalog vid fetch = (abortResp 502, [url])) ∧
    (p ≠ "" → lookupCatalog catalog vid = some url → fetch (unquoteStr p) = .ok r →
      r.status ≠ 200 → r.status ≠ 206 →
      proxy_segment catalog vid (some p) fetch = (abortResp 502, [unquoteStr p])) ∧
    (p ≠ "" → lookupCatalog catalog vid = some url → fetch (unquoteStr p) = .netError →
      proxy_segment catalog vid (some p) fetch = (abortResp 502, [unquoteStr p])) ∧
    proxy_segment catalog vid none fetch = (abortResp 400, []) ∧
    proxy_segment catalog vid (some "") fetch = (abortResp 400, []) ∧
    (abortResp 502).body = "" ∧ (abortResp 400).body = "" := by
  refine ⟨?_, ?_, ?_, ?_, rfl, rfl, rfl, rfl⟩
  · intro h1 h2 h3 h4 h5
    exact stream_video_badstatus h1 h2 h3 h4 h5
  · intro h1 h2 h3
    exact stream_video_neterror h1 h2 h3
  · intro h1 h2 h3 h4 h5
    exact proxy_segment_badstatus h1 h2 h3 h4 h5
  · intro h1 h2 h3
    exact proxy_segment_neterror h1 h2 h3

theorem C9_witness :
    (lookupCatalog demoCatalog "1" = some "https://h.example/v/index.m3u8" ∧
      demo403.status ≠ 200 ∧ demo403.status ≠ 206) ∧
    stream_video demoCatalog "1" (fun _ => FetchResult.ok demo403) =
      (abortResp 502, ["https://h.example/v/index.m3u8"]) ∧
    proxy_segment demoCatalog "1" none (fun _ => FetchResult.ok demo403) =
      (abortResp 400, []) := by
  refine ⟨⟨by decide, by decide, by decide⟩, ?_, ?_⟩
  · exact (C9_error_responses demoCatalog "1" "https://h.example/v/index.m3u8" "x"
      (fun _ => FetchResult.ok demo403) demo403).1 (by decide) (by decide) rfl
      (by decide) (by decide)
  · exact (C9_error_responses demoCatalog "1" "https://h.example/v/index.m3u8" "x"
      (fun _ => FetchResult.ok demo403) demo403).2.2.2.2.1

/-- C4 counterexample: the claim extends the CORS guarantee to the 400,
404 and 502 shapes, but those are raised via `abort` before the
header-setting lines run, so the 404 for an unknown id carries no CORS
header at all. -/
theorem C4_counterexample_404_no_cors :
    (stream_video VIDEOS "999" (fun _ => FetchResult.netError)).1.status = 404 ∧
      ("Access-Control-Allow-Origin", "*") ∉
        (stream_video VIDEOS "999" (fun _ => FetchResult.netError)).1.headers := by
  constructor
  · decide
  · decide

/-- C4 (amended): every success response of the two proxy routes — both the
rewritten-playlist branch and the passthrough branch — carries the three
CORS headers `Access-Control-Allow-Origin: *`,
`Access-Control-Allow-Methods: GET, OPTIONS` and
`Access-Control-Allow-Headers: Range`; the 400/404/502 error shapes are
produced by `abort` and do not include them. -/
theorem C4_cors_on_success (catalog : List (String × String)) (vid url p : String)
    (fetch fetch2 : String → FetchResult) (r r2 : UpstreamResponse)
    (hlook : lookupCatalog catalog vid = some url) (hurl : url ≠ "")
    (hf : fetch url = .ok r) (hst : r.status = 200 ∨ r.status = 206)
    (hp : p ≠ "") (hf2 : fetch2 (unquoteStr p) = .ok r2)
    (hst2 : r2.status = 200 ∨ r2.status = 206) :
    (∀ h ∈ corsHeaders, h ∈ (stream_video catalog vid fetch).1.headers) ∧
    (∀ h ∈ corsHeaders, h ∈ (proxy_segment catalog vid (some p) fetch2).1.headers) := by
  constructor
  · intro h hmem
    rcases hpl : isPlaylist url ((r.headers "Content-Type").getD "") with _ | _
    · rw [stream_video_passthrough hlook hurl hf hst hpl]
      exact List.mem_append.mpr (Or.inr hmem)
    · rw [stream_video_playlist hlook hurl hf hst hpl]
      exact hmem
  · intro h hmem
    rcases hpl : isPlaylist (unquoteStr p) ((r2.headers "Content-Type").getD "video/mp2t") with _ | _
    · rw [proxy_segment_passthrough hp hlook hf2 hst2 hpl]
      exact List.mem_append.mpr (Or.inr hmem)
    · rw [proxy_segment_playlist hp hlook hf2 hst2 hpl]
      exact hmem

theorem C4_witness :
    (lookupCatalog demoCatalog "1" = some "https://h.example/v/index.m3u8" ∧
      demoOk.status = 200 ∧ ("seg" : String) ≠ "") ∧
    (∀ h ∈ corsHeaders, h ∈ (stream_video demoCatalog "1" demoFetch).1.headers) ∧
    (∀ h ∈ corsHeaders, h ∈ (proxy_segment demoCatalog "1" (some "seg") demoFetch).1.headers) := by
  refine ⟨⟨by decide, by decide, by decide⟩, ?_⟩
  exact C4_cors_on_success demoCatalog "1" "https://h.example/v/index.m3u8" "seg"
    demoFetch demoFetch demoOk demoOk (by decide) (by decide) rfl (Or.inl rfl)
    (by decide) rfl (Or.inl rfl)

/-- C7 counterexample: on a successful non-playlist fetch whose upstream
omits Content-Type, the claim demands a generic binary default, but the
`/segment` route defaults to `video/mp2t` (app.py:606), which is not a
generic binary type. -/
theorem C7_counterexample_mp2t_default :
    (proxy_segment demoCatalog "1" (some "https://h.example/v/seg0.ts")
        (fun _ => FetchResult.ok
          { status := 200, headers := fun _ => none, body := "" })).1.contentType =
      "video/mp2t" ∧
    ("video/mp2t" : String) ≠ "application/octet-stream" := by
  constructor
  · decide
  · decide

/-- C7 (amended): for every successful non-playlist fetch, the relayed
response carries the upstream status code; `Content-Length`,
`Content-Range` and `Accept-Ranges` appear exactly when present upstream
(never fabricated); `Content-Type` is forwarded, with the `/stream` route
defaulting to `application/octet-stream` and the `/segment` route to
`video/mp2t` when the upstream omits it. -/
theorem C7_passthrough_relay (catalog : List (String × String)) (vid url p : String)
    (fetch fetch2 : String → FetchResult) (r r2 : UpstreamResponse)
    (hlook : lookupCatalog catalog vid = some url) (hurl : url ≠ "")
    (hf : fetch url = .ok r) (hst : r.status = 200 ∨ r.status = 206)
    (hnp : isPlaylist url ((r.headers "Content-Type").getD "") = false)
    (hp : p ≠ "") (hf2 : fetch2 (unquoteStr p) = .ok r2)
    (hst2 : r2.status = 200 ∨ r2.status = 206)
    (hnp2 : isPlaylist (unquoteStr p) ((r2.headers "Content-Type").getD "video/mp2t") = false) :
    ((stream_video catalog vid fetch).1.status = r.status ∧
      (r.headers "Content-Type" = none →
        (stream_video catalog vid fetch).1.contentType = "application/octet-stream") ∧
      (∀ v2, r.headers "Content-Type" = some v2 → v2 ≠ "" →
        (stream_video catalog vid fetch).1.contentType = v2) ∧
      (∀ v2, (("Content-Length", v2) ∈ (stream_video catalog vid fetch).1.headers ↔
        r.headers "Content-Length" = some v2)) ∧
      (∀ v2, (("Content-Range", v2) ∈ (stream_video catalog vid fetch).1.headers ↔
        r.headers "Content-Range" = some v2)) ∧
      (∀ v2, (("Accept-Ranges", v2) ∈ (stream_video catalog vid fetch).1.headers ↔
        r.headers "Accept-Ranges" = some v2))) ∧
    ((proxy_segment catalog vid (some p) fetch2).1.status = r2.status ∧
      (r2.headers "Content-Type" = none →
        (proxy_segment catalog vid (some p) fetch2).1.contentType = "video/mp2t") ∧
      (∀ v2, r2.headers "Content-Type" = some v2 →
        (proxy_segment catalog vid (some p) fetch2).1.contentType = v2) ∧
      (∀ v2, (("Content-Length", v2) ∈ (proxy_segment catalog vid (some p) fetch2).1.headers ↔
        r2.headers "Content-Length" = some v2)) ∧
      (∀ v2, (("Content-Range", v2) ∈ (proxy_segment catalog vid (some p) fetch2).1.headers ↔
        r2.headers "Content-Range" = some v2)) ∧
      (∀ v2, (("Accept-Ranges", v2) ∈ (proxy_segment catalog vid (some p) fetch2).1.headers ↔
        r2.headers "Accept-Ranges" = some v2))) := by
  rw [stream_video_passthrough hlook hurl hf hst hnp,
    proxy_segment_passthrough hp hlook hf2 hst2 hnp2]
  refine ⟨⟨rfl, ?_, ?_, ?_, ?_, ?_⟩, ⟨rfl, ?_, ?_, ?_, ?_, ?_⟩⟩
  · intro hCT
    simp [hCT]
  · intro v2 hCT hne2
    simp [hCT, hne2]
  · intro v2
    exact (fwd_headers_mem r v2).1
  · intro v2
    exact (fwd_headers_mem r v2).2.1
  · intro v2
    exact (fwd_headers_mem r v2).2.2
  · intro hCT
    simp [hCT]
  · intro v2 hCT
    simp [hCT]
  · intro v2
    exact (fwd_headers_mem r2 v2).1
  · intro v2
    exact (fwd_headers_mem r2 v2).2.1
  · intro v2
    exact (fwd_headers_mem r2 v2).2.2

theorem C7_witness :
    (lookupCatalog demoCatalog2 "2" = some "https://h.example/v/movie.mp4" ∧
      demoPartial.status = 206 ∧
      isPlaylist "https://h.example/v/movie.mp4"
        ((demoPartial.headers "Content-Type").getD "") = false) ∧
    (stream_video demoCatalog2 "2" demoFetchPartial).1.status = demoPartial.status ∧
    (("Content-Range", "bytes 1000-2000/4000") ∈
        (stream_video demoCatalog2 "2" demoFetchPartial).1.headers ↔
      demoPartial.headers "Content-Range" = some "bytes 1000-2000/4000") ∧
    (proxy_segment demoCatalog2 "2" (some "https://h.example/v/movie.mp4")
        demoFetchPartial).1.contentType = "video/mp4" := by
  have h := C7_passthrough_relay demoCatalog2 "2" "https://h.example/v/movie.mp4"
    "https://h.example/v/movie.mp4" demoFetchPartial demoFetchPartial demoPartial demoPartial
    (by decide) (by decide) rfl (Or.inr rfl) (by decide)
    (by decide) rfl (Or.inr rfl) (by decide)
  exact ⟨⟨by decide, by decide, by decide⟩, h.1.1,
    h.1.2.2.2.2.1 "bytes 1000-2000/4000", h.2.2.2.1 "video/mp4" (by decide)⟩

/-- C10: a non-comment, non-blank line is classified as already absolute
exactly when its stripped form starts with the literal `http`: such a
line is percent-encoded as-is and the base URL is irrelevant (so a
relative filename starting with `http` is never joined), while any other
line — including absolute URLs of other schemes — is passed through
`urljoin` against the base URL before encoding; the same prefix rule
drives the quoted-URI replacement for comment lines. -/
theorem C10_http_prefix_rule (v b b2 : String) (line : List Char)
    (hne : pyStrip line ≠ [])
    (hnc : ['#'].isPrefixOf (pyStrip line) = false) :
    (httpPat.isPrefixOf (pyStrip line) = true →
      rewriteLine v b line = segRef v (pyStrip line) ∧
      rewriteLine v b line = rewriteLine v b2 line) ∧
    (httpPat.isPrefixOf (pyStrip line) = false →
      rewriteLine v b line = segRef v (urljoin b ⟨pyStrip line⟩).data) ∧
    (∀ body : List Char,
      (httpPat.isPrefixOf body = true →
        replUri v b body = ("URI=\"/segment/" ++ v ++ "?url=").data ++ quoteL body ++ [dq] ∧
        replUri v b body = replUri v b2 body) ∧
      (httpPat.isPrefixOf body = false →
        replUri v b body = ("URI=\"/segment/" ++ v ++ "?url=").data ++
          quoteL (urljoin b ⟨body⟩).data ++ [dq])) := by
  refine ⟨?_, ?_, ?_⟩
  · intro hhttp
    constructor
    · unfold rewriteLine
      rw [if_neg hne, if_neg (by simp [hnc]), if_pos hhttp]
    · unfold rewriteLine
      rw [if_neg hne, if_neg (by simp [hnc]), if_pos hhttp,
        if_neg hne, if_neg (by simp [hnc]), if_pos hhttp]
  · intro hhttp
    unfold rewriteLine
    rw [if_neg hne, if_neg (by simp [hnc]), if_neg (by simp [hhttp])]
  · intro body
    constructor
    · intro hhttp
      constructor
      · unfold replUri
        rw [if_pos hhttp]
      · unfold replUri
        rw [if_pos hhttp, if_pos hhttp]
    · intro hhttp
      unfold replUri
      rw [if_neg (by simp [hhttp])]

theorem C10_witness :
    (pyStrip ("httpvideo.ts" : String).data ≠ [] ∧
      ['#'].isPrefixOf (pyStrip ("httpvideo.ts" : String).data) = false ∧
      httpPat.isPrefixOf (pyStrip ("httpvideo.ts" : String).data) = true) ∧
    rewriteLine "7" "https://a.example/x/" ("httpvideo.ts" : String).data =
      segRef "7" (pyStrip ("httpvideo.ts" : String).data) ∧
    rewriteLine "7" "https://a.example/x/" ("httpvideo.ts" : String).data =
      rewriteLine "7" "https://b.example/y/" ("httpvideo.ts" : String).data :=
  ⟨⟨by decide, by decide, by decide⟩,
    (C10_http_prefix_rule "7" "https://a.example/x/" "https://b.example/y/"
      ("httpvideo.ts" : String).data (by decide) (by decide)).1 (by decide)⟩

/-- C1 (code-bug evidence): `quote(·, safe='')` and a single `unquote`
invert each other byte-for-byte, and the five critical characters are all
escaped — but the deployed decode side runs twice (werkzeug's
query-string decoding followed by the explicit `unquote` at app.py:577),
so an upstream URL containing the percent-encoded sequence `%20` is
fetched as a different URL (`seg one.ts` instead of `seg%20one.ts`), and
the recorded fetch of the `/segment` route shows it. -/
theorem C1_roundtrip_double_decode :
    pctDec (pctEnc (asciiBytes "https://cdn.example.com/seg%20one.ts")) =
      asciiBytes "https://cdn.example.com/seg%20one.ts" ∧
    pctEncByte 32 = asciiBytes "%20" ∧ pctEncByte 38 = asciiBytes "%26" ∧
    pctEncByte 35 = asciiBytes "%23" ∧ pctEncByte 37 = asciiBytes "%25" ∧
    pctEncByte 63 = asciiBytes "%3F" ∧
    rewriteLine "1" "https://cdn.example.com/"
        ("https://cdn.example.com/seg%20one.ts" : String).data =
      ("/segment/1?url=" ++ quoteStr "https://cdn.example.com/seg%20one.ts").data ∧
    unquoteStr (wzQueryValue (quoteStr "https://cdn.example.com/seg%20one.ts")) =
      "https://cdn.example.com/seg one.ts" ∧
    unquoteStr (wzQueryValue (quoteStr "https://cdn.example.com/seg%20one.ts")) ≠
      "https://cdn.example.com/seg%20one.ts" ∧
    (proxy_segment VIDEOS "1"
        (some (wzQueryValue (quoteStr "https://cdn.example.com/seg%20one.ts")))
        (fun _ => FetchResult.netError)).2 =
      ["https://cdn.example.com/seg one.ts"] := by
  refine ⟨?_, ?_, ?_, ?_, ?_, ?_, ?_, ?_, ?_, ?_⟩ <;> decide
